import Mathlib

/-!
Verification development for `babel-plugin-remove-graphql-queries`
(src/packages/babel-plugin-remove-graphql-queries/src/index.ts).

The plugin is embedded shallowly: the babel syntax tree is modelled at the
granularity the plugin inspects it (tag expressions, template elements, the
import-declarations with their specifiers, require-style declarators), and
the stateful Program visitor is modelled as explicit state passing over a
`PassState`, with an event trace recording the tree edits in the order the
code performs them.  JS exceptions become `Except` errors; the state carried
by an error is the state at throw time.
-/

namespace RemoveGraphqlQueries

/-- Babel `Position` (line/column of a source location). -/
structure Pos where
  line : Nat
  column : Nat
deriving Repr, DecidableEq

/-- Babel `SourceLocation` (`loc` of a node): a start and an end position. -/
structure Span where
  startP : Pos
  endP : Pos
deriving Repr, DecidableEq

/-- A `TemplateElement` (one entry of `quasi.quasis`): its `value.raw` text and
its optional source location (`loc` may be null on synthesized nodes). -/
structure TemplateElement where
  raw : String
  loc : Option Span
deriving Repr, DecidableEq

/-- The tag expression of a tagged template, at the shapes the plugin
distinguishes (`tag.isMemberExpression()` and the identifier case).
`member obj prop` is a property access `obj.prop` whose object is an
identifier; the code reads `tag.get("object")` and treats it as an
identifier, and a non-identifier object falls into the no-binding path. -/
inductive TagExpr where
  | ident : String → TagExpr
  | member : String → String → TagExpr
deriving Repr, DecidableEq

/-- A `TaggedTemplateExpression`: its tag and the literal segments
`node.quasi.quasis`.  (Babel guarantees at least one segment.) -/
structure TaggedTemplateExpr where
  tag : TagExpr
  quasis : List TemplateElement
deriving Repr, DecidableEq

/-- One specifier of an `ImportDeclaration`: named (`imported`, `local`),
default, or namespace. -/
inductive Specifier where
  | importSpecifier : String → String → Specifier
  | importDefaultSpecifier : String → Specifier
  | importNamespaceSpecifier : String → Specifier
deriving Repr, DecidableEq

/-- The local name a specifier binds. -/
def specLocal : Specifier → String
  | .importSpecifier _ l => l
  | .importDefaultSpecifier l => l
  | .importNamespaceSpecifier l => l

/-- A top-level declaration, at the shapes `getTagImport` distinguishes:
an `ImportDeclaration` (source and specifier list), a
`const { k1: v1, ... } = require(source)` declarator (object-pattern
properties as key/local pairs), a `const name = require(source)` declarator,
or any other declaration (recording only the names it binds). -/
inductive Declaration where
  | importDecl : String → List Specifier → Declaration
  | requireObjectPattern : String → List (String × String) → Declaration
  | requireIdentifier : String → String → Declaration
  | otherDecl : List String → Declaration
deriving Repr, DecidableEq

/-- Whether a declaration binds the given local name. -/
def declBinds : Declaration → String → Bool
  | .importDecl _ specs, n => specs.any (fun s => specLocal s == n)
  | .requireObjectPattern _ props, n => props.any (fun p => p.2 == n)
  | .requireIdentifier _ l, n => l == n
  | .otherDecl ns, n => ns.contains n

/-- `scope.getBinding(name)`: the first declaration binding `name`, with its
index in the module body. -/
def findBindingDecl : List Declaration → Nat → String → Option (Nat × Declaration)
  | [], _, _ => none
  | d :: rest, idx, n =>
    if declBinds d n then some (idx, d) else findBindingDecl rest (idx + 1) n

/-- The node path `getTagImport` returns: the specifier / object-pattern
property / identifier backing the binding, together with the index of its
declaration and the sibling count its removal logic consults
(`parent.node.specifiers.length` resp. `parent.node.properties.length`). -/
inductive TagImportPath where
  | importSpecifierPath : String → String → Nat → Nat → TagImportPath
  | importDefaultSpecifierPath : String → Nat → Nat → TagImportPath
  | importNamespaceSpecifierPath : String → Nat → Nat → TagImportPath
  | objectPropertyPath : String → String → Nat → Nat → TagImportPath
  | identifierPath : String → Nat → TagImportPath
deriving Repr, DecidableEq

/-- `getTagImport` (index.ts lines 82-114): resolve `name` through the
scope's bindings; return the backing path when the binding is a module
binding of an `ImportDeclaration` from `"gatsby"`, or a declarator whose
init is `require("gatsby")` (the object-pattern property holding `name`,
or the plain identifier); otherwise null. -/
def getTagImport (decls : List Declaration) (name : String) : Option TagImportPath :=
  match findBindingDecl decls 0 name with
  | none => none
  | some (idx, .importDecl src specs) =>
    if src == "gatsby" then
      match specs.find? (fun s => specLocal s == name) with
      | some (.importSpecifier imported l) =>
        some (.importSpecifierPath imported l idx specs.length)
      | some (.importDefaultSpecifier l) =>
        some (.importDefaultSpecifierPath l idx specs.length)
      | some (.importNamespaceSpecifier l) =>
        some (.importNamespaceSpecifierPath l idx specs.length)
      | none => none
    else none
  | some (idx, .requireObjectPattern src props) =>
    if src == "gatsby" then
      match props.find? (fun p => p.2 == name) with
      | some p => some (.objectPropertyPath p.1 p.2 idx props.length)
      | none => none
    else none
  | some (idx, .requireIdentifier src l) =>
    if src == "gatsby" then some (.identifierPath l idx) else none
  | some (_, .otherDecl _) => none

/-- The lexical context of one compilation unit: its top-level declarations
and the set of names the program references without any binding
(`scope.hasGlobal`). -/
structure FileCtx where
  decls : List Declaration
  globals : List String
deriving Repr, DecidableEq

/-- `isGlobalIdentifier` (lines 65-66): the tag is an identifier literally
named `graphql` and `graphql` is a global (free) name of the program. -/
def isGlobalIdentifier (ctx : FileCtx) (tag : TagExpr) : Bool :=
  match tag with
  | .ident n => n == "graphql" && ctx.globals.contains "graphql"
  | .member _ _ => false

/-- The identifier `isGraphqlTag` resolves: the object of a property access,
or the identifier itself. -/
def tagBaseName : TagExpr → String
  | .ident n => n
  | .member obj _ => obj

/-- `isGraphqlTag` (lines 116-137). -/
def isGraphqlTag (ctx : FileCtx) (tag : TagExpr) : Bool :=
  let isExpression : Bool := match tag with | .member _ _ => true | .ident _ => false
  match getTagImport ctx.decls (tagBaseName tag) with
  | none => isGlobalIdentifier ctx tag
  | some importPath =>
    if isExpression &&
        (match importPath with
         | .importNamespaceSpecifierPath _ _ _ => true
         | .identifierPath _ _ => true
         | _ => false) then
      match tag with
      | .member _ p => p == "graphql"
      | .ident _ => false
    else
      match importPath with
      | .importSpecifierPath imported _ _ _ => imported == "graphql"
      | .objectPropertyPath key _ _ _ => key == "graphql"
      | _ => false

/-- Modelled from the spec: the repository imports `murmurhash` from
`./murmur`, whose source file is not under src/.  Spec section 4.4 requires a
deterministic pure digest `text → unsigned 32-bit-class integer`, stable
across runs, with the seed given at the call site.  We model it as a concrete
pure 32-bit fold over the characters of the text with the given seed. -/
def murmurhash (text : String) (seed : Nat) : Nat :=
  text.data.foldl (fun h c => (h * 33 + c.toNat) % 4294967296) (seed % 4294967296)

/-- The external parser's `Document`: only the list of top-level definitions is
inspected (`ast.definitions.length`). -/
structure Document where
  definitions : List String
deriving Repr, DecidableEq

/-- A JS error value as thrown/caught by the plugin: the two error classes the
plugin constructs that can reach this point, an external parse error, the
`GraphQLSyntaxError` wrapper (carrying the document text, the original error
and the template location), and the TypeError a zero-quasi template would
cause (unreachable for well-formed babel trees, where
`quasis.length = expressions.length + 1 ≥ 1`). -/
inductive JsError where
  | stringInterpolationNotAllowed : Option Pos → Option Pos → JsError
  | emptyGraphQLTag : Option Span → JsError
  | externalParseError : String → JsError
  | graphqlSyntaxError : String → JsError → Option Span → JsError
  | jsTypeError : JsError
deriving Repr, DecidableEq

/-- `IGraphQLTag` (lines 169-174); the failed-classification return value
`{} as IGraphQLTag` has all fields undefined, modelled with `ast = none`
(the only field the callers test, via `if (!ast)`). -/
structure IGraphQLTag where
  ast : Option Document
  text : String
  hash : Nat
  isGlobal : Bool
deriving Repr, DecidableEq

/-- The `{} as IGraphQLTag` record returned when the tag is not a graphql
tag. -/
def emptyIGraphQLTag : IGraphQLTag :=
  { ast := none, text := "", hash := 0, isGlobal := false }

/-- `getGraphQLTag` (lines 176-204).  Note the `EmptyGraphQLTagError` thrown
for a zero-definition document is raised inside the `try` block whose
`catch` wraps every error into a `GraphQLSyntaxError`, so what escapes in
that case is the wrapper. -/
def getGraphQLTag (parse : String → Except JsError Document) (ctx : FileCtx)
    (path : TaggedTemplateExpr) : Except JsError IGraphQLTag :=
  let tag := path.tag
  let isGlobal := isGlobalIdentifier ctx tag
  if (!isGlobal && !isGraphqlTag ctx tag) = true then .ok emptyIGraphQLTag
  else
    match path.quasis with
    | [] => .error .jsTypeError
    | [q] =>
      let text := q.raw
      let hash := murmurhash text 0
      match parse text with
      | .error err => .error (.graphqlSyntaxError text err q.loc)
      | .ok ast =>
        if ast.definitions.length = 0 then
          .error (.graphqlSyntaxError text (.emptyGraphQLTag q.loc) q.loc)
        else .ok { ast := some ast, text := text, hash := hash, isGlobal := isGlobal }
    | q0 :: q1 :: _ =>
      .error (.stringInterpolationNotAllowed
        (q0.loc.map (fun s => s.endP)) (q1.loc.map (fun s => s.startP)))

/-- Replace the declaration at `idx` (no-op when out of range); models editing
one declaration in place. -/
def updateDeclAt (decls : List Declaration) (idx : Nat) (f : Declaration → Declaration) :
    List Declaration :=
  match decls.get? idx with
  | some d => decls.set idx (f d)
  | none => decls

/-- `removeImport` (lines 139-167): locate the backing import of the tag and
delete the minimal unit.  An `ImportSpecifier` is removed alone unless it is
the declaration's only specifier (`parent.node.specifiers.length === 1`, all
specifier kinds counted), in which case the whole declaration is removed; an
object-pattern property likewise against `properties.length`; a plain
identifier declarator removes its whole variable declaration; a default or
namespace specifier matches none of the checks, so nothing is removed; no-op
when no backing import is found. -/
def removeImport (decls : List Declaration) (tag : TagExpr) : List Declaration :=
  match getTagImport decls (tagBaseName tag) with
  | none => decls
  | some (.importSpecifierPath _ l idx specCount) =>
    if specCount = 1 then decls.eraseIdx idx
    else
      updateDeclAt decls idx (fun d =>
        match d with
        | .importDecl src specs => .importDecl src (specs.eraseP (fun s => specLocal s == l))
        | d => d)
  | some (.importDefaultSpecifierPath _ _ _) => decls
  | some (.importNamespaceSpecifierPath _ _ _) => decls
  | some (.objectPropertyPath _ l idx propCount) =>
    if propCount = 1 then decls.eraseIdx idx
    else
      updateDeclAt decls idx (fun d =>
        match d with
        | .requireObjectPattern src props =>
          .requireObjectPattern src (props.eraseP (fun p => p.2 == l))
        | d => d)
  | some (.identifierPath _ idx) => decls.eraseIdx idx

/-! ### followVariableDeclarations

`followVariableDeclarations` (lines 68-80) sees of each binding only whether
its declaring node is a `VariableDeclarator` whose id and init are plain
identifiers (an alias `let x = y`), so we model its input environment as a
finite map from names to that shape.  The source recursion carries no fuel,
visited set or other bound; the Lean embedding makes the recursion depth
explicit as fuel, and an input on which the source recursion never returns is
one on which the embedding returns `none` for every fuel. -/

/-- The shape of a binding as `followVariableDeclarations` inspects it. -/
inductive VarBinding where
  | declaratorAlias : String → VarBinding
  | terminalBinding : VarBinding
deriving Repr, DecidableEq

/-- `followVariableDeclarations` with explicit recursion depth.  Follows
`let name = init` alias links via `scope.getBinding(init.name)`; a terminal
binding is returned (as its name).  An unbound init name is passed on by the
source through an unchecked cast and crashes on the next property access,
modelled as `none`. -/
def followVariableDeclarations (env : List (String × VarBinding)) :
    Nat → String → Option String
  | 0, _ => none
  | fuel + 1, name =>
    match env.lookup name with
    | some (.declaratorAlias init) =>
      match env.lookup init with
      | some _ => followVariableDeclarations env fuel init
      | none => none
    | some .terminalBinding => some name
    | none => none

/-- The source recursion terminates on a binding iff some finite recursion
depth suffices. -/
def FollowTerminates (env : List (String × VarBinding)) (name : String) : Prop :=
  ∃ fuel, (followVariableDeclarations env fuel name).isSome = true

/-- The alias chain starting at `name` reaches a terminal binding within `k`
alias steps, every intermediate name being bound. -/
def ReachesTerminal (env : List (String × VarBinding)) : Nat → String → Bool
  | 0, name =>
    match env.lookup name with
    | some .terminalBinding => true
    | _ => false
  | k + 1, name =>
    match env.lookup name with
    | some .terminalBinding => true
    | some (.declaratorAlias init) => (env.lookup init).isSome && ReachesTerminal env k init
    | none => false

/-! ### The Program visitor as a state machine

The Program visitor (lines 216-460) performs three traversal sweeps and a
final drain of `tagsToRemoveImportsFrom`.  We model the relevant occurrences
of tagged templates as a list of `Site`s; each sweep walks the site list in
order and applies the handler the code applies to the nodes that sweep
discovers.  Tree edits are recorded as events in the order the code performs
them. -/

/-- One tree edit performed by the visitor. -/
inductive Event where
  | replaceTemplate : Nat → String → Event
  | enqueueTag : TagExpr → Event
  | addDataAttr : Nat → String → Event
  | injectImport : Nat → String → List String → Event
  | removeHookImport : Event
  | replaceHookCall : Nat → String → Event
  | removeEnqueuedImport : TagExpr → Event
deriving Repr, DecidableEq

/-- A tagged-template occurrence: still a tagged template, or already
replaced by the string literal of its query hash. -/
inductive SiteStatus where
  | tagged : TaggedTemplateExpr → SiteStatus
  | replacedWith : String → SiteStatus
deriving Repr, DecidableEq

/-- One tagged-template occurrence and the call-site shapes enclosing it:
`inStaticQuery` when it sits in the `query` attribute of a
`<StaticQuery>` element referencing gatsby (so the nested JSX visitor fires),
`hookCallee = some bare` when it sits inside a `useStaticQuery(...)` call
(`bare` is true for a bare-identifier callee, false for
`Gatsby.useStaticQuery`). -/
structure Site where
  status : SiteStatus
  inStaticQuery : Bool
  hookCallee : Option Bool
deriving Repr, DecidableEq

/-- The mutable state of one Program-visitor invocation: the module's
declarations and globals, the sites, the `tagsToRemoveImportsFrom` set
(a JS `Set`: deduplicated, insertion ordered) and the edit trace. -/
structure PassState where
  ctx : FileCtx
  sites : List Site
  pending : List TagExpr
  trace : List Event
deriving Repr, DecidableEq

/-- `Set.add`: append unless already present. -/
def addDedup (l : List TagExpr) (t : TagExpr) : List TagExpr :=
  if l.contains t then l else l ++ [t]

/-- `public/static/d/<hash>.json`, as path segments. -/
def shortResultPathSegs (queryHash : String) : List String :=
  ["public", "static", "d", queryHash ++ ".json"]

/-- `nodePath.relative` on already-normalized absolute paths, over path
segments: drop the common prefix, then one `..` per remaining source segment
followed by the remaining target segments. -/
def relativeSegs : List String → List String → List String
  | [], toSegs => toSegs
  | f :: fs, [] => (f :: fs).map (fun _ => "..")
  | f :: fs, t :: ts =>
    if f == t then relativeSegs fs ts
    else (f :: fs).map (fun _ => "..") ++ t :: ts

/-- The module path of the synthetic result import (lines 244-253, 295-305):
relative to the file's directory (`nodePath.parse(filename).dir`) when a
filename is known, else the root-relative short path. -/
def resultImportSource (cwd : List String) (filename : Option (List String))
    (queryHash : String) : List String :=
  let short := shortResultPathSegs queryHash
  match filename with
  | some f => relativeSegs f.dropLast (cwd ++ short)
  | none => short

/-- The immediate `useStaticQuery` import removal inside `nestedHookVisitor`
(lines 277-284): only when the binding's path is an `ImportSpecifier`; the
whole declaration when it is the only specifier, else just the specifier. -/
def removeUseStaticQueryImport (decls : List Declaration) : List Declaration :=
  match findBindingDecl decls 0 "useStaticQuery" with
  | some (idx, .importDecl _ specs) =>
    match specs.find? (fun s => specLocal s == "useStaticQuery") with
    | some (.importSpecifier _ _) =>
      if specs.length = 1 then decls.eraseIdx idx
      else
        updateDeclAt decls idx (fun d =>
          match d with
          | .importDecl s2 sp2 =>
            .importDecl s2 (sp2.eraseP (fun s => specLocal s == "useStaticQuery"))
          | d => d)
    | _ => decls
  | _ => decls

/-- `setImportForStaticQuery` (lines 313-355) together with the nested
visitors it triggers (lines 220-309).  Order as in the source: classify and
validate (`getGraphQLTag`; a thrown error aborts with the tree untouched by
this call), skip when not a graphql tag, enqueue the tag for deferred import
removal unless global, replace the template with the hash string, then run
the nested JSX visitor (outside of production/test modes it does nothing) and
the nested hook visitor (immediate `useStaticQuery`-import removal for a bare
callee, call replacement, synthetic import).  Both nested injectors bind the
fixed identifier `staticQueryData`. -/
def setImportForStaticQuery (parse : String → Except JsError Document) (mode : String)
    (cwd : List String) (filename : Option (List String))
    (st : PassState) (i : Nat) : Except (JsError × PassState) PassState :=
  match st.sites.get? i with
  | none => .ok st
  | some s =>
    match s.status with
    | .replacedWith _ => .ok st
    | .tagged tmpl =>
      match getGraphQLTag parse st.ctx tmpl with
      | .error e => .error (e, st)
      | .ok r =>
        if r.ast.isNone then .ok st
        else
          let st1 :=
            if r.isGlobal then st
            else { st with pending := addDedup st.pending tmpl.tag,
                           trace := st.trace ++ [.enqueueTag tmpl.tag] }
          let qh := toString r.hash
          let st2 := { st1 with
            sites := st1.sites.set i { s with status := .replacedWith qh },
            trace := st1.trace ++ [.replaceTemplate i qh] }
          let prodLike : Bool := mode == "production" || mode == "test"
          let st3 :=
            if prodLike && s.inStaticQuery then
              { st2 with trace := st2.trace ++
                  [.addDataAttr i "staticQueryData",
                   .injectImport i "staticQueryData" (resultImportSource cwd filename qh)] }
            else st2
          let st4 :=
            match s.hookCallee with
            | none => st3
            | some bare =>
              if prodLike then
                let st3a :=
                  if bare then
                    { st3 with
                      ctx := { st3.ctx with decls := removeUseStaticQueryImport st3.ctx.decls },
                      trace := st3.trace ++ [.removeHookImport] }
                  else st3
                { st3a with trace := st3a.trace ++
                    [.replaceHookCall i "staticQueryData",
                     .injectImport i "staticQueryData" (resultImportSource cwd filename qh)] }
              else st3
          .ok st4

/-- The handler of the final sweep (lines 435-454): classify, enqueue unless
global, replace with the hash string; no nested visitors. -/
def finalSweepStep (parse : String → Except JsError Document)
    (st : PassState) (i : Nat) : Except (JsError × PassState) PassState :=
  match st.sites.get? i with
  | none => .ok st
  | some s =>
    match s.status with
    | .replacedWith _ => .ok st
    | .tagged tmpl =>
      match getGraphQLTag parse st.ctx tmpl with
      | .error e => .error (e, st)
      | .ok r =>
        if r.ast.isNone then .ok st
        else
          let st1 :=
            if r.isGlobal then st
            else { st with pending := addDedup st.pending tmpl.tag,
                           trace := st.trace ++ [.enqueueTag tmpl.tag] }
          let qh := toString r.hash
          .ok { st1 with
            sites := st1.sites.set i { s with status := .replacedWith qh },
            trace := st1.trace ++ [.replaceTemplate i qh] }

/-- Run a handler over the given site indices in order, aborting on the first
thrown error (which aborts the whole babel pass). -/
def sweepGo (handler : PassState → Nat → Except (JsError × PassState) PassState) :
    PassState → List Nat → Except (JsError × PassState) PassState
  | st, [] => .ok st
  | st, i :: rest =>
    match handler st i with
    | .error e => .error e
    | .ok st' => sweepGo handler st' rest

/-- Sweep 1 (lines 357-399): `<StaticQuery>` instances. -/
def staticQuerySweep (parse : String → Except JsError Document) (mode : String)
    (cwd : List String) (filename : Option (List String))
    (st : PassState) : Except (JsError × PassState) PassState :=
  sweepGo
    (fun st' i =>
      match st'.sites.get? i with
      | some s =>
        if s.inStaticQuery then setImportForStaticQuery parse mode cwd filename st' i
        else .ok st'
      | none => .ok st')
    st (List.range st.sites.length)

/-- Sweep 2 (lines 401-432): `useStaticQuery` instances. -/
def hookSweep (parse : String → Except JsError Document) (mode : String)
    (cwd : List String) (filename : Option (List String))
    (st : PassState) : Except (JsError × PassState) PassState :=
  sweepGo
    (fun st' i =>
      match st'.sites.get? i with
      | some s =>
        if s.hookCallee.isSome then setImportForStaticQuery parse mode cwd filename st' i
        else .ok st'
      | none => .ok st')
    st (List.range st.sites.length)

/-- Sweep 3 (lines 434-454): every remaining tagged template. -/
def finalSweep (parse : String → Except JsError Document)
    (st : PassState) : Except (JsError × PassState) PassState :=
  sweepGo (fun st' i => finalSweepStep parse st' i) st (List.range st.sites.length)

/-- `tagsToRemoveImportsFrom.forEach(removeImport)` (line 456): drain the
pending set once, applying `removeImport` per enqueued tag. -/
def drainPendingRemovals (st : PassState) : PassState :=
  { st with
    ctx := { st.ctx with decls := st.pending.foldl removeImport st.ctx.decls },
    trace := st.trace ++ st.pending.map Event.removeEnqueuedImport }

/-- The whole Program visitor (lines 219-457): three sweeps in order, then
the single drain of the pending import removals. -/
def runPass (parse : String → Except JsError Document) (mode : String)
    (cwd : List String) (filename : Option (List String))
    (ctx : FileCtx) (sites : List Site) : Except (JsError × PassState) PassState :=
  let st0 : PassState := { ctx := ctx, sites := sites, pending := [], trace := [] }
  match staticQuerySweep parse mode cwd filename st0 with
  | .error e => .error e
  | .ok st1 =>
    match hookSweep parse mode cwd filename st1 with
    | .error e => .error e
    | .ok st2 =>
      match finalSweep parse st2 with
      | .error e => .error e
      | .ok st3 => .ok (drainPendingRemovals st3)

/-- Whether an event is a drain-phase removal of an enqueued tag's import. -/
def isDrainEvent : Event → Bool
  | .removeEnqueuedImport _ => true
  | _ => false

/-- The local names of the synthetic default imports in a trace. -/
def injectedImportNames (tr : List Event) : List String :=
  tr.filterMap (fun e => match e with | .injectImport _ n _ => some n | _ => none)

/-- The trace of a pass result (on an aborted pass, the trace at throw
time). -/
def passTrace (r : Except (JsError × PassState) PassState) : List Event :=
  match r with
  | .ok st => st.trace
  | .error e => e.2.trace

/-- A trace with no drain-phase import removal. -/
def noDrainB (l : List Event) : Bool :=
  l.all (fun e => !isDrainEvent e)

/-- The invariant the three sweeps maintain: the trace holds no drain-phase
removal of enqueued imports, and the pending set is duplicate-free. -/
def SweepInv (st : PassState) : Prop :=
  noDrainB st.trace = true ∧ st.pending.Nodup

/-! ## Helper lemmas -/

lemma findBindingDecl_get? :
    ∀ (decls : List Declaration) (k : Nat) (n : String) (idx : Nat) (d : Declaration),
      findBindingDecl decls k n = some (idx, d) →
      ∃ j, idx = k + j ∧ decls.get? j = some d := by
  intro decls
  induction decls with
  | nil => intro k n idx d h; simp [findBindingDecl] at h
  | cons hd tl ih =>
    intro k n idx d h
    by_cases hb : declBinds hd n
    · simp [findBindingDecl, hb] at h
      exact ⟨0, by simp [h.1], by simp [h.2]⟩
    · simp [findBindingDecl, hb] at h
      obtain ⟨j, hj, hget⟩ := ih (k + 1) n idx d h
      exact ⟨j + 1, by omega, by simpa using hget⟩

lemma getGraphQLTag_hash_of_ok {parse : String → Except JsError Document}
    {ctx : FileCtx} {p : TaggedTemplateExpr} {r : IGraphQLTag}
    (h : getGraphQLTag parse ctx p = .ok r) (ha : r.ast.isSome = true) :
    r.hash = murmurhash r.text 0 := by
  unfold getGraphQLTag at h
  split at h <;> dsimp only at h
  · -- quasis = []
    split at h
    · cases h; simp [emptyIGraphQLTag] at ha
    · exact Except.noConfusion h
  · -- quasis = [q]
    split at h
    · cases h; simp [emptyIGraphQLTag] at ha
    · split at h
      · exact Except.noConfusion h
      · split at h
        · exact Except.noConfusion h
        · cases h; rfl
  · -- quasis = q0 :: q1 :: rest
    split at h
    · cases h; simp [emptyIGraphQLTag] at ha
    · exact Except.noConfusion h

/-! ## C1: empty-definition rejection -/

/-- C1: the claim says that when the single segment parses to a document with
zero top-level definitions, EmptyGraphQLTagError is the fault that propagates,
not a syntax fault.  The code throws `EmptyGraphQLTagError` inside the `try`
block whose `catch` wraps every thrown error into `GraphQLSyntaxError`, so at
a concrete global-tag template whose text parses to zero definitions the
propagated error is the `graphqlSyntaxError` wrapper carrying the
`emptyGraphQLTag` error inside it. -/
theorem c1_empty_query_wrapped_as_syntax_error :
    getGraphQLTag (fun _ => .ok ⟨[]⟩) ⟨[], ["graphql"]⟩
        ⟨.ident "graphql", [⟨"", some ⟨⟨1, 0⟩, ⟨1, 2⟩⟩⟩]⟩ =
      .error (.graphqlSyntaxError "" (.emptyGraphQLTag (some ⟨⟨1, 0⟩, ⟨1, 2⟩⟩))
        (some ⟨⟨1, 0⟩, ⟨1, 2⟩⟩)) := by
  rfl

/-! ## C2: property-access tags over named imports -/

/-- C2 counterexample: the claim says a property-access tag whose base
resolves to a named-import specifier never matches.  But with
`import { graphql } from "gatsby"`, the tag `graphql.somethingElse` is
classified as a graphql tag: the named-import branch of `isGraphqlTag`
compares the specifier's imported name, ignoring the accessed property. -/
theorem c2_counterexample :
    isGraphqlTag ⟨[.importDecl "gatsby" [.importSpecifier "graphql" "graphql"]], []⟩
      (.member "graphql" "somethingElse") = true := by
  rfl

/-- C2 (amended): for a property-access tag whose base resolves to a
named-import specifier, `isGraphqlTag` ignores the accessed property name and
returns true exactly when the specifier's imported name is `graphql`. -/
theorem c2_named_import_member_matches_on_imported_name
    (ctx : FileCtx) (obj prop imported l : String) (idx cnt : Nat)
    (h : getTagImport ctx.decls obj = some (.importSpecifierPath imported l idx cnt)) :
    isGraphqlTag ctx (.member obj prop) = (imported == "graphql") := by
  simp [isGraphqlTag, tagBaseName, h]

/-- C2 witness: concrete aliased named import `import { graphql as g }`,
tag `g.foo`. -/
theorem c2_witness :
    isGraphqlTag ⟨[.importDecl "gatsby" [.importSpecifier "graphql" "g"]], []⟩
      (.member "g" "foo") = ("graphql" == "graphql") :=
  c2_named_import_member_matches_on_imported_name
    ⟨[.importDecl "gatsby" [.importSpecifier "graphql" "g"]], []⟩
    "g" "foo" "graphql" "g" 0 1 (by rfl)

/-! ## C4: termination of followVariableDeclarations -/

/-- A malformed two-declaration alias cycle `let x = y; let y = x`. -/
def cycleAliasEnv : List (String × VarBinding) :=
  [("x", .declaratorAlias "y"), ("y", .declaratorAlias "x")]

lemma followVD_cycle_none (n : Nat) :
    followVariableDeclarations cycleAliasEnv n "x" = none ∧
    followVariableDeclarations cycleAliasEnv n "y" = none := by
  induction n with
  | zero => exact ⟨rfl, rfl⟩
  | succ n ih =>
    refine ⟨?_, ?_⟩
    · have hx : followVariableDeclarations cycleAliasEnv (n + 1) "x" =
          followVariableDeclarations cycleAliasEnv n "y" := rfl
      rw [hx]; exact ih.2
    · have hy : followVariableDeclarations cycleAliasEnv (n + 1) "y" =
          followVariableDeclarations cycleAliasEnv n "x" := rfl
      rw [hy]; exact ih.1

/-- C4 counterexample: the claim says `followVariableDeclarations` terminates
on every input, recursion being bounded e.g. by a visited set.  The source
has no visited set, and on the alias cycle `let x = y; let y = x` the
recursion never returns: no recursion depth produces a result. -/
theorem c4_counterexample : ¬ FollowTerminates cycleAliasEnv "x" := by
  rintro ⟨n, hn⟩
  rw [(followVD_cycle_none n).1] at hn
  simp at hn

/-- C4 (amended): `followVariableDeclarations` terminates exactly on the
inputs well-formed programs produce: whenever the alias-initialization chain
from the starting binding reaches a terminal (non-alias) binding in finitely
many steps, the recursion returns within that many steps plus one. -/
theorem c4_terminates_on_acyclic_chains
    (env : List (String × VarBinding)) (k : Nat) (name : String)
    (h : ReachesTerminal env k name = true) :
    (followVariableDeclarations env (k + 1) name).isSome = true := by
  induction k generalizing name with
  | zero =>
    unfold ReachesTerminal at h
    split at h
    · rename_i heq
      simp [followVariableDeclarations, heq]
    · exact absurd h (by simp)
  | succ k ih =>
    unfold ReachesTerminal at h
    split at h
    · rename_i heq
      simp [followVariableDeclarations, heq]
    · rename_i init heq
      rw [Bool.and_eq_true] at h
      obtain ⟨hsome, hrt⟩ := h
      cases hlk : env.lookup init with
      | none => rw [hlk] at hsome; simp at hsome
      | some v =>
        have hstep : followVariableDeclarations env (k + 1 + 1) name =
            followVariableDeclarations env (k + 1) init := by
          simp [followVariableDeclarations, heq, hlk]
        rw [hstep]
        exact ih init hrt
    · exact absurd h (by simp)

/-- C4 witness: a two-step acyclic chain `let a = b` with `b` terminal. -/
theorem c4_witness :
    ReachesTerminal [("a", .declaratorAlias "b"), ("b", .terminalBinding)] 1 "a" = true ∧
    (followVariableDeclarations [("a", .declaratorAlias "b"), ("b", .terminalBinding)]
        2 "a").isSome = true :=
  ⟨by decide,
   c4_terminates_on_acyclic_chains
     [("a", .declaratorAlias "b"), ("b", .terminalBinding)] 1 "a" (by decide)⟩

/-! ## C6: import-deletion minimality -/

/-- C6 counterexample: the claim counts only named specifiers, so for
`import g, { graphql } from "gatsby"` (one named specifier backing the tag,
plus a default specifier) it demands the whole declaration be removed.  The
code tests `parent.node.specifiers.length === 1`, which counts the default
specifier too, so it removes just the named specifier and the declaration
survives. -/
theorem c6_counterexample :
    removeImport
        [.importDecl "gatsby" [.importDefaultSpecifier "g",
          .importSpecifier "graphql" "graphql"]]
        (.ident "graphql") =
      [.importDecl "gatsby" [.importDefaultSpecifier "g"]] := by
  rfl

/-- C6 (amended): `removeImport` counts all specifiers of the backing import
declaration (named, default and namespace alike): with a total of N
specifiers of which the tag's named specifier is one, the declaration
survives with N-1 specifiers when N is not 1, and the whole declaration is
removed when N is 1; analogously for require-style destructuring against the
object pattern's property count. -/
theorem c6_minimal_unit_by_total_specifier_count :
    (∀ (decls : List Declaration) (name imported l : String) (idx : Nat)
        (specs : List Specifier),
      findBindingDecl decls 0 name = some (idx, .importDecl "gatsby" specs) →
      specs.find? (fun s => specLocal s == name) = some (.importSpecifier imported l) →
      (specs.length = 1 → removeImport decls (.ident name) = decls.eraseIdx idx) ∧
      (specs.length ≠ 1 →
        removeImport decls (.ident name) =
          decls.set idx (.importDecl "gatsby" (specs.eraseP (fun s => specLocal s == l))) ∧
        (specs.eraseP (fun s => specLocal s == l)).length + 1 = specs.length)) ∧
    (∀ (decls : List Declaration) (name key : String) (idx : Nat)
        (props : List (String × String)),
      findBindingDecl decls 0 name = some (idx, .requireObjectPattern "gatsby" props) →
      props.find? (fun p => p.2 == name) = some (key, name) →
      (props.length = 1 → removeImport decls (.ident name) = decls.eraseIdx idx) ∧
      (props.length ≠ 1 →
        removeImport decls (.ident name) =
          decls.set idx (.requireObjectPattern "gatsby"
            (props.eraseP (fun p => p.2 == name))) ∧
        (props.eraseP (fun p => p.2 == name)).length + 1 = props.length)) := by
  constructor
  · intro decls name imported l idx specs hfind hspec
    have hget : getTagImport decls name =
        some (.importSpecifierPath imported l idx specs.length) := by
      simp [getTagImport, hfind, hspec]
    have hmem := List.mem_of_find?_eq_some hspec
    have hloc : specLocal (.importSpecifier imported l) = l := rfl
    constructor
    · intro h1
      simp [removeImport, tagBaseName, hget, h1]
    · intro h1
      have hgetidx : decls.get? idx = some (.importDecl "gatsby" specs) := by
        obtain ⟨j, hj, hg⟩ := findBindingDecl_get? decls 0 name idx _ hfind
        rw [hj]; simpa using hg
      rw [List.get?_eq_getElem?] at hgetidx
      refine ⟨?_, ?_⟩
      · simp [removeImport, tagBaseName, hget, h1, updateDeclAt, hgetidx]
      · exact List.length_eraseP_add_one hmem (by simp [hloc])
  · intro decls name key idx props hfind hspec
    have hget : getTagImport decls name =
        some (.objectPropertyPath key name idx props.length) := by
      simp [getTagImport, hfind, hspec]
    have hmem := List.mem_of_find?_eq_some hspec
    constructor
    · intro h1
      simp [removeImport, tagBaseName, hget, h1]
    · intro h1
      have hgetidx : decls.get? idx = some (.requireObjectPattern "gatsby" props) := by
        obtain ⟨j, hj, hg⟩ := findBindingDecl_get? decls 0 name idx _ hfind
        rw [hj]; simpa using hg
      rw [List.get?_eq_getElem?] at hgetidx
      refine ⟨?_, ?_⟩
      · simp [removeImport, tagBaseName, hget, h1, updateDeclAt, hgetidx]
      · exact List.length_eraseP_add_one hmem (by simp)

/-- C6 witness: a two-named-specifier gatsby import keeps its sibling, and a
single-property require destructuring loses its whole declaration. -/
theorem c6_witness :
    removeImport
        [.importDecl "gatsby" [.importSpecifier "graphql" "graphql",
          .importSpecifier "Link" "Link"]]
        (.ident "graphql") =
      [.importDecl "gatsby" [.importSpecifier "Link" "Link"]] ∧
    removeImport [.requireObjectPattern "gatsby" [("graphql", "graphql")]]
        (.ident "graphql") = [] := by
  constructor
  · have h := (c6_minimal_unit_by_total_specifier_count.1
      [.importDecl "gatsby" [.importSpecifier "graphql" "graphql",
        .importSpecifier "Link" "Link"]]
      "graphql" "graphql" "graphql" 0
      [.importSpecifier "graphql" "graphql", .importSpecifier "Link" "Link"]
      rfl rfl).2 (by decide)
    exact h.1.trans (by decide)
  · have h := (c6_minimal_unit_by_total_specifier_count.2
      [.requireObjectPattern "gatsby" [("graphql", "graphql")]]
      "graphql" "graphql" 0 [("graphql", "graphql")] rfl rfl).1 rfl
    exact h.trans (by decide)

/-! ## C5: string-interpolation rejection -/

/-- C5: a tagged template classified as a query tag with more than one
literal segment makes `getGraphQLTag` throw
`StringInterpolationNotAllowedError` carrying the end of the first segment
and the start of the second; `setImportForStaticQuery` propagates the error
with the pass state exactly as it was (no tree mutation). -/
theorem c5_interpolation_fault
    (parse : String → Except JsError Document) (mode : String)
    (cwd : List String) (filename : Option (List String))
    (st : PassState) (i : Nat) (s : Site) (tmpl : TaggedTemplateExpr)
    (q0 q1 : TemplateElement) (rest : List TemplateElement)
    (hget : st.sites.get? i = some s)
    (hst : s.status = .tagged tmpl)
    (hq : tmpl.quasis = q0 :: q1 :: rest)
    (hcls : (isGlobalIdentifier st.ctx tmpl.tag || isGraphqlTag st.ctx tmpl.tag) = true) :
    getGraphQLTag parse st.ctx tmpl =
      .error (.stringInterpolationNotAllowed (q0.loc.map (fun sp => sp.endP))
        (q1.loc.map (fun sp => sp.startP))) ∧
    setImportForStaticQuery parse mode cwd filename st i =
      .error (.stringInterpolationNotAllowed (q0.loc.map (fun sp => sp.endP))
        (q1.loc.map (fun sp => sp.startP)), st) := by
  have hcond : (!isGlobalIdentifier st.ctx tmpl.tag && !isGraphqlTag st.ctx tmpl.tag)
      = false := by
    cases h1 : isGlobalIdentifier st.ctx tmpl.tag <;>
      cases h2 : isGraphqlTag st.ctx tmpl.tag <;> simp_all
  have h1 : getGraphQLTag parse st.ctx tmpl =
      .error (.stringInterpolationNotAllowed (q0.loc.map (fun sp => sp.endP))
        (q1.loc.map (fun sp => sp.startP))) := by
    unfold getGraphQLTag
    rw [hq]
    simp [hcond]
  have hget2 : st.sites[i]? = some s := by rw [← List.get?_eq_getElem?]; exact hget
  exact ⟨h1, by simp [setImportForStaticQuery, hget2, hst, h1]⟩

/-- C5 witness: concrete classified template with two segments. -/
theorem c5_witness :
    getGraphQLTag (fun _ => .ok ⟨["d"]⟩) ⟨[], ["graphql"]⟩
        ⟨.ident "graphql", [⟨"a", some ⟨⟨1, 0⟩, ⟨1, 1⟩⟩⟩, ⟨"b", some ⟨⟨1, 5⟩, ⟨1, 6⟩⟩⟩]⟩ =
      .error (.stringInterpolationNotAllowed (some ⟨1, 1⟩) (some ⟨1, 5⟩)) ∧
    setImportForStaticQuery (fun _ => .ok ⟨["d"]⟩) "production" [] none
        ⟨⟨[], ["graphql"]⟩,
         [⟨.tagged ⟨.ident "graphql",
            [⟨"a", some ⟨⟨1, 0⟩, ⟨1, 1⟩⟩⟩, ⟨"b", some ⟨⟨1, 5⟩, ⟨1, 6⟩⟩⟩]⟩, false, none⟩],
         [], []⟩ 0 =
      .error (.stringInterpolationNotAllowed (some ⟨1, 1⟩) (some ⟨1, 5⟩),
        ⟨⟨[], ["graphql"]⟩,
         [⟨.tagged ⟨.ident "graphql",
            [⟨"a", some ⟨⟨1, 0⟩, ⟨1, 1⟩⟩⟩, ⟨"b", some ⟨⟨1, 5⟩, ⟨1, 6⟩⟩⟩]⟩, false, none⟩],
         [], []⟩) :=
  c5_interpolation_fault (fun _ => .ok ⟨["d"]⟩) "production" [] none
    ⟨⟨[], ["graphql"]⟩,
     [⟨.tagged ⟨.ident "graphql",
        [⟨"a", some ⟨⟨1, 0⟩, ⟨1, 1⟩⟩⟩, ⟨"b", some ⟨⟨1, 5⟩, ⟨1, 6⟩⟩⟩]⟩, false, none⟩],
     [], []⟩ 0
    ⟨.tagged ⟨.ident "graphql",
       [⟨"a", some ⟨⟨1, 0⟩, ⟨1, 1⟩⟩⟩, ⟨"b", some ⟨⟨1, 5⟩, ⟨1, 6⟩⟩⟩]⟩, false, none⟩
    ⟨.ident "graphql", [⟨"a", some ⟨⟨1, 0⟩, ⟨1, 1⟩⟩⟩, ⟨"b", some ⟨⟨1, 5⟩, ⟨1, 6⟩⟩⟩]⟩
    ⟨"a", some ⟨⟨1, 0⟩, ⟨1, 1⟩⟩⟩ ⟨"b", some ⟨⟨1, 5⟩, ⟨1, 6⟩⟩⟩ []
    rfl rfl rfl (by rfl)

/-! ## C7: global fallback -/

/-- C7: a bare tag literally named `graphql` with no binding anywhere in the
file and `graphql` free in the program classifies as a Global query tag; the
final sweep replaces the template with the string form of its hash and adds
no entry to the pending import-removal set (pending, ctx and the other sites
are untouched). -/
theorem c7_global_fallback
    (parse : String → Except JsError Document)
    (st : PassState) (i : Nat) (s : Site) (tmpl : TaggedTemplateExpr)
    (q : TemplateElement) (doc : Document)
    (hget : st.sites.get? i = some s)
    (hst : s.status = .tagged tmpl)
    (htag : tmpl.tag = .ident "graphql")
    (hnobind : findBindingDecl st.ctx.decls 0 "graphql" = none)
    (hglob : st.ctx.globals.contains "graphql" = true)
    (hq : tmpl.quasis = [q])
    (hp : parse q.raw = .ok doc)
    (hne : doc.definitions ≠ []) :
    isGlobalIdentifier st.ctx tmpl.tag = true ∧
    finalSweepStep parse st i = .ok { st with
      sites := st.sites.set i { s with status := .replacedWith (toString (murmurhash q.raw 0)) },
      trace := st.trace ++ [.replaceTemplate i (toString (murmurhash q.raw 0))] } := by
  have hg : isGlobalIdentifier st.ctx tmpl.tag = true := by
    simp [isGlobalIdentifier, htag]
    simpa using hglob
  have hgt : getGraphQLTag parse st.ctx tmpl =
      .ok { ast := some doc, text := q.raw, hash := murmurhash q.raw 0, isGlobal := true } := by
    unfold getGraphQLTag
    rw [hq]
    simp [hg, hp, hne]
  refine ⟨hg, ?_⟩
  have hget2 : st.sites[i]? = some s := by rw [← List.get?_eq_getElem?]; exact hget
  simp [finalSweepStep, hget2, hst, hgt]

/-- C7 witness: concrete free `graphql` tag. -/
theorem c7_witness :
    isGlobalIdentifier (⟨[], ["graphql"]⟩ : FileCtx) (TagExpr.ident "graphql") = true ∧
    finalSweepStep (fun _ => .ok ⟨["d"]⟩)
        ⟨⟨[], ["graphql"]⟩, [⟨.tagged ⟨.ident "graphql", [⟨"q", none⟩]⟩, false, none⟩], [], []⟩ 0 =
      .ok ⟨⟨[], ["graphql"]⟩,
        [⟨.replacedWith (toString (murmurhash "q" 0)), false, none⟩],
        [], [.replaceTemplate 0 (toString (murmurhash "q" 0))]⟩ := by
  have h := c7_global_fallback (fun _ => .ok ⟨["d"]⟩)
    ⟨⟨[], ["graphql"]⟩, [⟨.tagged ⟨.ident "graphql", [⟨"q", none⟩]⟩, false, none⟩], [], []⟩ 0
    ⟨.tagged ⟨.ident "graphql", [⟨"q", none⟩]⟩, false, none⟩
    ⟨.ident "graphql", [⟨"q", none⟩]⟩ ⟨"q", none⟩ ⟨["d"]⟩
    rfl rfl rfl rfl rfl rfl rfl (by simp)
  exact ⟨h.1, h.2.trans (by rfl)⟩

/-! ## C9: hash purity -/

/-- C9: the hash of every produced query record is a pure function of the raw
template text alone: two runs of `getGraphQLTag`, with any parser functions,
any file contexts, any tag shapes and any source locations, that both produce
actual query records (an `ast` is present) with byte-identical raw text,
produce equal hashes.  (`murmurhash` is a pure Lean function of the text and
the fixed seed 0, so equality across runs of the same input is definitional.) -/
theorem c9_hash_depends_only_on_text
    (parse1 parse2 : String → Except JsError Document)
    (ctx1 ctx2 : FileCtx) (p1 p2 : TaggedTemplateExpr) (r1 r2 : IGraphQLTag)
    (h1 : getGraphQLTag parse1 ctx1 p1 = .ok r1)
    (h2 : getGraphQLTag parse2 ctx2 p2 = .ok r2)
    (ha1 : r1.ast.isSome = true) (ha2 : r2.ast.isSome = true)
    (ht : r1.text = r2.text) :
    r1.hash = r2.hash := by
  rw [getGraphQLTag_hash_of_ok h1 ha1, getGraphQLTag_hash_of_ok h2 ha2, ht]

/-- C9 witness: the same text `"q"` at two different call sites — a global
tag at one location with one parser, a named-import tag at another location
with another parser — hashes identically. -/
theorem c9_witness :
    ({ ast := some ⟨["a"]⟩, text := "q", hash := murmurhash "q" 0, isGlobal := true}
        : IGraphQLTag).hash =
    ({ ast := some ⟨["b"]⟩, text := "q", hash := murmurhash "q" 0, isGlobal := false}
        : IGraphQLTag).hash :=
  c9_hash_depends_only_on_text
    (fun _ => .ok ⟨["a"]⟩) (fun _ => .ok ⟨["b"]⟩)
    ⟨[], ["graphql"]⟩ ⟨[.importDecl "gatsby" [.importSpecifier "graphql" "g"]], []⟩
    ⟨.ident "graphql", [⟨"q", some ⟨⟨1, 0⟩, ⟨1, 1⟩⟩⟩]⟩ ⟨.ident "g", [⟨"q", none⟩]⟩
    _ _ rfl rfl rfl rfl rfl

/-! ## C10: unclassified tags are untouched -/

/-- C10: for a tagged template whose tag is neither the global free
identifier `graphql` nor classified as a gatsby graphql import,
`getGraphQLTag` returns the empty record without raising any fault, and the
handlers of all three traversal sweeps return the pass state exactly
unchanged: no hash substitution, no injection, no import-removal enqueue. -/
theorem c10_unclassified_tag_untouched
    (parse : String → Except JsError Document) (mode : String)
    (cwd : List String) (filename : Option (List String))
    (st : PassState) (i : Nat) (s : Site) (tmpl : TaggedTemplateExpr)
    (hget : st.sites.get? i = some s)
    (hst : s.status = .tagged tmpl)
    (hg : isGlobalIdentifier st.ctx tmpl.tag = false)
    (ht : isGraphqlTag st.ctx tmpl.tag = false) :
    getGraphQLTag parse st.ctx tmpl = .ok emptyIGraphQLTag ∧
    setImportForStaticQuery parse mode cwd filename st i = .ok st ∧
    finalSweepStep parse st i = .ok st := by
  have hcond : (!isGlobalIdentifier st.ctx tmpl.tag && !isGraphqlTag st.ctx tmpl.tag)
      = true := by simp [hg, ht]
  have h1 : getGraphQLTag parse st.ctx tmpl = .ok emptyIGraphQLTag := by
    unfold getGraphQLTag
    rcases hq : tmpl.quasis with _ | ⟨q, _ | ⟨q1, rest⟩⟩ <;> simp [hcond]
  have hget2 : st.sites[i]? = some s := by rw [← List.get?_eq_getElem?]; exact hget
  refine ⟨h1, ?_, ?_⟩
  · simp [setImportForStaticQuery, hget2, hst, h1, emptyIGraphQLTag]
  · simp [finalSweepStep, hget2, hst, h1, emptyIGraphQLTag]

/-- C10 witness: a template tagged by an unrelated identifier in a file with
no gatsby constructs. -/
theorem c10_witness :
    getGraphQLTag (fun _ => .ok ⟨["d"]⟩) (⟨[], []⟩ : FileCtx)
        ⟨.ident "styled", [⟨"q", none⟩]⟩ = .ok emptyIGraphQLTag ∧
    setImportForStaticQuery (fun _ => .ok ⟨["d"]⟩) "production" [] none
        ⟨⟨[], []⟩, [⟨.tagged ⟨.ident "styled", [⟨"q", none⟩]⟩, true, some true⟩], [], []⟩ 0 =
      .ok ⟨⟨[], []⟩, [⟨.tagged ⟨.ident "styled", [⟨"q", none⟩]⟩, true, some true⟩], [], []⟩ ∧
    finalSweepStep (fun _ => .ok ⟨["d"]⟩)
        ⟨⟨[], []⟩, [⟨.tagged ⟨.ident "styled", [⟨"q", none⟩]⟩, true, some true⟩], [], []⟩ 0 =
      .ok ⟨⟨[], []⟩, [⟨.tagged ⟨.ident "styled", [⟨"q", none⟩]⟩, true, some true⟩], [], []⟩ :=
  c10_unclassified_tag_untouched (fun _ => .ok ⟨["d"]⟩) "production" [] none
    ⟨⟨[], []⟩, [⟨.tagged ⟨.ident "styled", [⟨"q", none⟩]⟩, true, some true⟩], [], []⟩ 0
    ⟨.tagged ⟨.ident "styled", [⟨"q", none⟩]⟩, true, some true⟩
    ⟨.ident "styled", [⟨"q", none⟩]⟩
    rfl rfl rfl rfl

/-! ## C8: the injected identifier -/

/-- C8 counterexample: the claim says the Static-Result Injector binds a
fresh local identifier, colliding neither with existing bindings nor with
identifiers injected for other queries.  In a file that already binds
`staticQueryData` and contains two StaticQuery attribute queries, the pass
injects two default imports, both bound to the same fixed name
`staticQueryData`, which also equals the pre-existing binding's name. -/
theorem c8_counterexample :
    injectedImportNames (passTrace (runPass (fun _ => .ok ⟨["d"]⟩) "production" ["app"] none
      ⟨[.importDecl "gatsby" [.importSpecifier "graphql" "graphql"],
        .otherDecl ["staticQueryData"]], []⟩
      [⟨.tagged ⟨.ident "graphql", [⟨"q1", none⟩]⟩, true, none⟩,
       ⟨.tagged ⟨.ident "graphql", [⟨"q2", none⟩]⟩, true, none⟩])) =
      ["staticQueryData", "staticQueryData"] := by
  rfl

/-- C8 (amended): in attribute mode (production-like mode, template inside a
StaticQuery `query` attribute), the injector binds the new attribute and the
synthetic default import to the fixed identifier `staticQueryData` — the same
name for every query in the file and regardless of existing bindings, not a
freshly generated one. -/
theorem c8_fixed_static_query_data_identifier
    (parse : String → Except JsError Document) (mode : String)
    (cwd : List String) (filename : Option (List String))
    (st : PassState) (i : Nat) (s : Site) (tmpl : TaggedTemplateExpr) (r : IGraphQLTag)
    (hget : st.sites.get? i = some s)
    (hst : s.status = .tagged tmpl)
    (hr : getGraphQLTag parse st.ctx tmpl = .ok r)
    (ha : r.ast.isSome = true)
    (hsq : s.inStaticQuery = true)
    (hmode : mode = "production" ∨ mode = "test") :
    ∃ st', setImportForStaticQuery parse mode cwd filename st i = .ok st' ∧
      Event.addDataAttr i "staticQueryData" ∈ st'.trace ∧
      Event.injectImport i "staticQueryData"
        (resultImportSource cwd filename (toString r.hash)) ∈ st'.trace := by
  have hprod : (mode == "production" || mode == "test") = true := by
    rcases hmode with rfl | rfl <;> rfl
  have hisn : r.ast.isNone = false := by
    cases hast : r.ast
    · rw [hast] at ha; simp at ha
    · rfl
  unfold setImportForStaticQuery
  rw [hget]
  dsimp only
  rw [hst]
  dsimp only
  rw [hr]
  dsimp only
  simp only [hisn, Bool.false_eq_true, if_false]
  refine ⟨_, rfl, ?_, ?_⟩ <;>
    (rcases hhc : s.hookCallee with _ | bare) <;>
    (try cases bare) <;>
    cases hgl : r.isGlobal <;>
    simp [hhc, hgl, hsq, hprod]

/-- C8 witness: a single production-mode StaticQuery attribute site. -/
theorem c8_witness :
    ∃ st', setImportForStaticQuery (fun _ => .ok ⟨["d"]⟩) "production" [] none
        ⟨⟨[], ["graphql"]⟩, [⟨.tagged ⟨.ident "graphql", [⟨"q", none⟩]⟩, true, none⟩],
         [], []⟩ 0 = .ok st' ∧
      Event.addDataAttr 0 "staticQueryData" ∈ st'.trace ∧
      Event.injectImport 0 "staticQueryData"
        (resultImportSource [] none (toString (murmurhash "q" 0))) ∈ st'.trace :=
  c8_fixed_static_query_data_identifier (fun _ => .ok ⟨["d"]⟩) "production" [] none
    ⟨⟨[], ["graphql"]⟩, [⟨.tagged ⟨.ident "graphql", [⟨"q", none⟩]⟩, true, none⟩], [], []⟩ 0
    ⟨.tagged ⟨.ident "graphql", [⟨"q", none⟩]⟩, true, none⟩
    ⟨.ident "graphql", [⟨"q", none⟩]⟩
    { ast := some ⟨["d"]⟩, text := "q", hash := murmurhash "q" 0, isGlobal := true}
    rfl rfl rfl rfl rfl (Or.inl rfl)

/-! ## C3: defer-then-drain -/

@[simp] lemma isDrainEvent_replaceTemplate (i : Nat) (qh : String) :
    isDrainEvent (.replaceTemplate i qh) = false := rfl

@[simp] lemma isDrainEvent_enqueueTag (t : TagExpr) :
    isDrainEvent (.enqueueTag t) = false := rfl

@[simp] lemma isDrainEvent_addDataAttr (i : Nat) (n : String) :
    isDrainEvent (.addDataAttr i n) = false := rfl

@[simp] lemma isDrainEvent_injectImport (i : Nat) (n : String) (p : List String) :
    isDrainEvent (.injectImport i n p) = false := rfl

@[simp] lemma isDrainEvent_removeHookImport :
    isDrainEvent .removeHookImport = false := rfl

@[simp] lemma isDrainEvent_replaceHookCall (i : Nat) (n : String) :
    isDrainEvent (.replaceHookCall i n) = false := rfl

lemma addDedup_nodup {l : List TagExpr} {t : TagExpr} (h : l.Nodup) :
    (addDedup l t).Nodup := by
  unfold addDedup
  split
  · exact h
  · rename_i hc
    have ht : t ∉ l := by simpa using hc
    refine List.Nodup.append h (List.nodup_singleton t) ?_
    intro a hal hat
    simp only [List.mem_singleton] at hat
    subst hat
    exact ht hal

lemma setImport_preserves_inv
    (parse : String → Except JsError Document) (mode : String)
    (cwd : List String) (filename : Option (List String))
    (st : PassState) (i : Nat) (st' : PassState)
    (h : setImportForStaticQuery parse mode cwd filename st i = .ok st')
    (hin : SweepInv st) : SweepInv st' := by
  unfold setImportForStaticQuery at h
  split at h
  · cases h; exact hin
  · rename_i s hs
    split at h
    · cases h; exact hin
    · rename_i tmpl htm
      split at h
      · exact Except.noConfusion h
      · rename_i r hr
        split at h
        · cases h; exact hin
        · obtain ⟨hnd, hpd⟩ := hin
          have hnd' : ∀ e ∈ st.trace, isDrainEvent e = false := by
            intro e he
            simpa using (List.all_eq_true.mp hnd) e he
          have hpd2 : (addDedup st.pending tmpl.tag).Nodup := addDedup_nodup hpd
          cases h
          cases hgl : r.isGlobal <;>
            cases hpl : (mode == "production" || mode == "test") <;>
            cases hsq : s.inStaticQuery <;>
            cases hhc : s.hookCallee
          all_goals try (rename_i bare; cases bare)
          all_goals refine ⟨?_, ?_⟩
          all_goals try simp [noDrainB, List.all_append, hnd', hpd, hpd2]
          all_goals exact hnd'

lemma finalSweepStep_preserves_inv
    (parse : String → Except JsError Document)
    (st : PassState) (i : Nat) (st' : PassState)
    (h : finalSweepStep parse st i = .ok st')
    (hin : SweepInv st) : SweepInv st' := by
  unfold finalSweepStep at h
  split at h
  · cases h; exact hin
  · rename_i s hs
    split at h
    · cases h; exact hin
    · rename_i tmpl htm
      split at h
      · exact Except.noConfusion h
      · rename_i r hr
        split at h
        · cases h; exact hin
        · obtain ⟨hnd, hpd⟩ := hin
          have hnd' : ∀ e ∈ st.trace, isDrainEvent e = false := by
            intro e he
            simpa using (List.all_eq_true.mp hnd) e he
          have hpd2 : (addDedup st.pending tmpl.tag).Nodup := addDedup_nodup hpd
          cases h
          cases hgl : r.isGlobal
          all_goals refine ⟨?_, ?_⟩
          all_goals try simp [noDrainB, List.all_append, hnd', hpd, hpd2]
          all_goals exact hnd'

lemma sweepGo_preserves_inv
    (handler : PassState → Nat → Except (JsError × PassState) PassState)
    (hpres : ∀ st i st', handler st i = .ok st' → SweepInv st → SweepInv st') :
    ∀ (l : List Nat) (st st' : PassState),
      sweepGo handler st l = .ok st' → SweepInv st → SweepInv st' := by
  intro l
  induction l with
  | nil =>
    intro st st' h hin
    unfold sweepGo at h
    cases h
    exact hin
  | cons i rest ih =>
    intro st st' h hin
    unfold sweepGo at h
    cases hh : handler st i with
    | error e => rw [hh] at h; exact Except.noConfusion h
    | ok st1 =>
      rw [hh] at h
      exact ih st1 st' h (hpres st i st1 hh hin)

lemma staticQuerySweep_preserves_inv
    (parse : String → Except JsError Document) (mode : String)
    (cwd : List String) (filename : Option (List String))
    (st st' : PassState)
    (h : staticQuerySweep parse mode cwd filename st = .ok st')
    (hin : SweepInv st) : SweepInv st' := by
  refine sweepGo_preserves_inv _ ?_ _ st st' h hin
  intro st1 i st1' hh hin1
  try dsimp only at hh
  split at hh
  · split at hh
    · exact setImport_preserves_inv parse mode cwd filename st1 i st1' hh hin1
    · cases hh; exact hin1
  · cases hh; exact hin1

lemma hookSweep_preserves_inv
    (parse : String → Except JsError Document) (mode : String)
    (cwd : List String) (filename : Option (List String))
    (st st' : PassState)
    (h : hookSweep parse mode cwd filename st = .ok st')
    (hin : SweepInv st) : SweepInv st' := by
  refine sweepGo_preserves_inv _ ?_ _ st st' h hin
  intro st1 i st1' hh hin1
  try dsimp only at hh
  split at hh
  · split at hh
    · exact setImport_preserves_inv parse mode cwd filename st1 i st1' hh hin1
    · cases hh; exact hin1
  · cases hh; exact hin1

lemma finalSweep_preserves_inv
    (parse : String → Except JsError Document)
    (st st' : PassState)
    (h : finalSweep parse st = .ok st')
    (hin : SweepInv st) : SweepInv st' := by
  refine sweepGo_preserves_inv _ ?_ _ st st' h hin
  intro st1 i st1' hh hin1
  exact finalSweepStep_preserves_inv parse st1 i st1' hh hin1

/-- C3: on every completed pass, the trace splits as a sweep part followed by
the drain part: the drain-phase removals of enqueued query-tag imports are
exactly one per pending tag (the set is duplicate-free and mapped once), they
all sit after every sweep event, and the sweep part contains no drain-phase
removal — during the three sweeps no enqueued query-tag import is ever
removed. -/
theorem c3_defer_then_drain
    (parse : String → Except JsError Document) (mode : String)
    (cwd : List String) (filename : Option (List String))
    (ctx : FileCtx) (sites : List Site) (stF : PassState)
    (h : runPass parse mode cwd filename ctx sites = .ok stF) :
    ∃ pre, stF.trace = pre ++ stF.pending.map Event.removeEnqueuedImport ∧
      noDrainB pre = true ∧ stF.pending.Nodup := by
  unfold runPass at h
  dsimp only at h
  cases h1 : staticQuerySweep parse mode cwd filename
      { ctx := ctx, sites := sites, pending := [], trace := [] } with
  | error e => rw [h1] at h; exact Except.noConfusion h
  | ok st1 =>
    rw [h1] at h
    dsimp only at h
    cases h2 : hookSweep parse mode cwd filename st1 with
    | error e => rw [h2] at h; exact Except.noConfusion h
    | ok st2 =>
      rw [h2] at h
      dsimp only at h
      cases h3 : finalSweep parse st2 with
      | error e => rw [h3] at h; exact Except.noConfusion h
      | ok st3 =>
        rw [h3] at h
        dsimp only at h
        have hin0 : SweepInv { ctx := ctx, sites := sites, pending := [], trace := [] } :=
          ⟨rfl, List.nodup_nil⟩
        have hin1 := staticQuerySweep_preserves_inv parse mode cwd filename _ st1 h1 hin0
        have hin2 := hookSweep_preserves_inv parse mode cwd filename st1 st2 h2 hin1
        have hin3 := finalSweep_preserves_inv parse st2 st3 h3 hin2
        cases h
        exact ⟨st3.trace, rfl, hin3.1, hin3.2⟩

/-- C3 witness: a one-site file whose graphql tag comes from a named gatsby
module import; the pass enqueues the tag during the final sweep and drains it
once at the end. -/
theorem c3_witness :
    ∃ pre,
      (⟨⟨[], []⟩, [⟨.replacedWith "113", false, none⟩], [.ident "graphql"],
        [.enqueueTag (.ident "graphql"), .replaceTemplate 0 "113",
         .removeEnqueuedImport (.ident "graphql")]⟩ : PassState).trace =
        pre ++ (PassState.pending ⟨⟨[], []⟩, [⟨.replacedWith "113", false, none⟩],
          [.ident "graphql"],
          [.enqueueTag (.ident "graphql"), .replaceTemplate 0 "113",
           .removeEnqueuedImport (.ident "graphql")]⟩).map Event.removeEnqueuedImport ∧
      noDrainB pre = true ∧
      (PassState.pending ⟨⟨[], []⟩, [⟨.replacedWith "113", false, none⟩],
        [.ident "graphql"],
        [.enqueueTag (.ident "graphql"), .replaceTemplate 0 "113",
         .removeEnqueuedImport (.ident "graphql")]⟩).Nodup :=
  c3_defer_then_drain (fun _ => .ok ⟨["d"]⟩) "development" [] none
    ⟨[.importDecl "gatsby" [.importSpecifier "graphql" "graphql"]], []⟩
    [⟨.tagged ⟨.ident "graphql", [⟨"q", none⟩]⟩, false, none⟩]
    ⟨⟨[], []⟩, [⟨.replacedWith "113", false, none⟩], [.ident "graphql"],
      [.enqueueTag (.ident "graphql"), .replaceTemplate 0 "113",
       .removeEnqueuedImport (.ident "graphql")]⟩
    (by rfl)

end RemoveGraphqlQueries
